import Mathlib

/-!
Shallow embedding of the transaction-confirmation monitor of the
`mcp-ethereum` repository.

The repository contains three full implementations of the monitor:
* `WFTC1` — `src/src/tools/wait_for_transaction_confirmation.ts`, first
  version (confirmations computed as `current − inclusion`);
* `WFTC2` — same file, second version (confirmations computed as
  `current − inclusion + 1`);
* `HandlerM` — the MCP server handler in the unnamed source part that
  carries the milestone-progress logic and the revert-reason recovery
  (`lastMilestonePercentage` / `shouldSendProgress` / `sendProgress`).

Each implementation is a `while (Date.now() - startTime < timeoutMs)` loop
whose body performs chain reads and either returns a terminal result or
falls through to `await sleep(intervalMs)`.  The body is embedded as a pure
step function over a per-iteration observation of the chain (the values the
RPC reads would return, or the error they would throw), and the loop as a
fold of the step over a stream of observations.

Timing model: chain reads and status sends are instantaneous and the sleep
takes exactly `intervalMs`; the elapsed time at the top of iteration `k` is
therefore `k * intervalMs`, so iteration `k` runs exactly when
`k * intervalMs < timeoutMs`.  JS numbers are modelled as `Int`
(durations in whole milliseconds respectively seconds; `Number(bigint)`
precision loss is not modelled), block numbers as `Nat`.
-/

/-- Result of one RPC read: the value, or the message of the thrown error
(the JS `catch` receives `error` and formats `error.message`). -/
inductive ChainAnswer (α : Type) : Type
  | ok (a : α)
  | err (msg : String)
  deriving Repr, DecidableEq

/-- `receipt.status` in viem: `'success'` or `'reverted'`. -/
inductive TxStatus : Type
  | success
  | reverted
  deriving Repr, DecidableEq

/-- The fields of a transaction receipt the monitor reads. -/
structure Receipt : Type where
  blockNumber : Nat
  status : TxStatus
  gasUsed : Nat
  effectiveGasPrice : Nat
  deriving Repr, DecidableEq

/-- The fields of a transaction object the monitor reads
(`getTransaction`: sender, nonce, recipient, input, value). -/
structure Transaction : Type where
  sender : String
  nonce : Nat
  hash : String
  recipient : String
  input : String
  value : Nat
  deriving Repr, DecidableEq

/-- The field of a block the monitor reads (`getBlock` is only used for
`block.timestamp`). -/
structure Block : Type where
  timestamp : Nat
  deriving Repr, DecidableEq

/-- Everything one loop iteration can observe from the chain: the answers
the four RPC reads would give if performed this iteration.  `receipt` is
`ok none` when the transaction is not yet mined.  `callResult` is the
outcome of the re-simulation `publicClient.call` used by the handler for
revert-reason recovery: `err m` means the call reverted (threw) with
message `m`. -/
structure Obs : Type where
  blockNumber : ChainAnswer Nat
  receipt : ChainAnswer (Option Receipt)
  transaction : ChainAnswer (Option Transaction)
  block : ChainAnswer Block
  callResult : ChainAnswer Unit
  deriving Repr, DecidableEq

/-- Message sent from the `catch (error)` block of the polling loop. -/
def errorCheckingMessage (e : String) : String :=
  s!"Error checking transaction status: {e}"

/-- Message sent when no receipt exists yet. -/
def notMinedMessage (txHash : String) (interval : Int) : String :=
  s!"Transaction {txHash} not yet mined. Checking again in {interval} seconds..."

/-- Message sent when the receipt exists but more confirmations are needed. -/
def waitingMessage (txHash : String) (txBlockNumber : Nat)
    (expectedConformations confirmations : Int) : String :=
  s!"Transaction {txHash} included in block {txBlockNumber}. Waiting for {expectedConformations - confirmations} more confirmations..."

/-- Message sent just before returning the confirmed result. -/
def confirmedMessage (txHash : String) (confirmations : Int) : String :=
  s!"Transaction {txHash} confirmed with {confirmations} confirmations"

/-- Message sent by the tool lineages just before the reverted result. -/
def revertedMessage (txHash : String) : String :=
  s!"Transaction {txHash} was reverted"

/-- Terminal results of the first tool lineage
(`result.status` values `'reverted'`, `'confirmed'`, `'timeout'`). -/
inductive OutcomeV1 : Type
  | reverted (txHash : String) (blockNumber : Nat) (confirmations : Int)
      (receipt : Receipt) (gasUsed effectiveGasPrice : String)
      (transaction : Option Transaction)
  | confirmed (txHash : String) (blockNumber : Nat) (timestamp : Nat)
      (confirmations : Int) (receipt : Receipt)
  | timeout (txHash : String) (message : String)
  deriving Repr, DecidableEq

/-- Terminal results of the second tool lineage; the timeout case is a
`success: false` envelope carrying only an error string. -/
inductive OutcomeV2 : Type
  | reverted (transactionHash : String) (blockNumber : Nat) (confirmations : Int)
      (receipt : Receipt) (gasUsed effectiveGasPrice : String)
      (transaction : Option Transaction)
  | confirmed (transactionHash : String) (blockNumber : Nat) (timestamp : Nat)
      (confirmations : Int) (receipt : Receipt)
  | timeoutError (error : String)
  deriving Repr, DecidableEq

/-- One iteration of the first tool lineage
(`wait_for_transaction_confirmation.ts`, first version).  Returns the
status messages attempted this iteration and `some` terminal result, or
`none` when the body falls through to the sleep.  The confirmation count is
`Number(currentBlockNumber - txBlockNumber)` — no `+ 1`.  The reverted
branch returns before the threshold is ever compared; its result has no
revert-reason field.  Any read error reaches the single `catch`, which
sends a status message and lets the loop continue. -/
def stepWFTC1 (txHash : String) (expectedConformations interval : Int)
    (obs : Obs) : List String × Option OutcomeV1 :=
  match obs.blockNumber with
  | .err e => ([errorCheckingMessage e], none)
  | .ok currentBlockNumber =>
    match obs.receipt with
    | .err e => ([errorCheckingMessage e], none)
    | .ok none => ([notMinedMessage txHash interval], none)
    | .ok (some receipt) =>
      let txBlockNumber := receipt.blockNumber
      let confirmations : Int := (currentBlockNumber : Int) - (txBlockNumber : Int)
      match receipt.status with
      | .reverted =>
        match obs.transaction with
        | .err e => ([revertedMessage txHash, errorCheckingMessage e], none)
        | .ok transaction =>
          ([revertedMessage txHash],
            some (.reverted txHash receipt.blockNumber confirmations receipt
              (toString receipt.gasUsed) (toString receipt.effectiveGasPrice)
              transaction))
      | .success =>
        match obs.block with
        | .err e => ([errorCheckingMessage e], none)
        | .ok block =>
          if confirmations ≥ expectedConformations then
            ([confirmedMessage txHash confirmations],
              some (.confirmed txHash receipt.blockNumber block.timestamp
                confirmations receipt))
          else
            ([waitingMessage txHash txBlockNumber expectedConformations
                confirmations], none)

/-- One iteration of the second tool lineage (same file, second version).
Identical control flow to `stepWFTC1` except that the confirmation count is
`Number(currentBlockNumber - txBlockNumber) + 1` — inclusion counts as
confirmation 1. -/
def stepWFTC2 (txHash : String) (expectedConfirmations intervalSec : Int)
    (obs : Obs) : List String × Option OutcomeV2 :=
  match obs.blockNumber with
  | .err e => ([errorCheckingMessage e], none)
  | .ok currentBlockNumber =>
    match obs.receipt with
    | .err e => ([errorCheckingMessage e], none)
    | .ok none => ([notMinedMessage txHash intervalSec], none)
    | .ok (some receipt) =>
      let txBlockNumber := receipt.blockNumber
      let currentConfirmations : Int :=
        (currentBlockNumber : Int) - (txBlockNumber : Int) + 1
      match receipt.status with
      | .reverted =>
        match obs.transaction with
        | .err e => ([revertedMessage txHash, errorCheckingMessage e], none)
        | .ok transaction =>
          ([revertedMessage txHash],
            some (.reverted txHash receipt.blockNumber currentConfirmations
              receipt (toString receipt.gasUsed)
              (toString receipt.effectiveGasPrice) transaction))
      | .success =>
        match obs.block with
        | .err e => ([errorCheckingMessage e], none)
        | .ok block =>
          if currentConfirmations ≥ expectedConfirmations then
            ([confirmedMessage txHash currentConfirmations],
              some (.confirmed txHash receipt.blockNumber block.timestamp
                currentConfirmations receipt))
          else
            ([waitingMessage txHash txBlockNumber expectedConfirmations
                currentConfirmations], none)

/-- Terminal results of the MCP server handler that carries the milestone
logic; its reverted result includes the recovered `revertReason`, and its
confirmed result has no timestamp (the handler never calls `getBlock`). -/
inductive OutcomeM : Type
  | confirmed (txHash : String) (blockNumber : Nat) (confirmations : Int)
      (receipt : Receipt)
  | reverted (txHash : String) (blockNumber : Nat) (confirmations : Int)
      (revertReason : String) (receipt : Receipt)
  | timeout (txHash : String) (message : String)
  deriving Repr, DecidableEq

/-- The milestone table `[25, 50, 75, 100]` of the progress logic. -/
def milestonesList : List Nat := [25, 50, 75, 100]

/-- `Math.floor((confirmations / expectedConformations) * 100)`, modelled as
the floor of the exact rational (`Int.fdiv` rounds toward `-∞`, matching
`Math.floor`).  The binary-float rounding of the JS division, and the JS
`Infinity`/`NaN` values arising when `expectedConformations` is `0`, are
not modelled. -/
def progressPercentage (confirmations expectedConformations : Int) : Int :=
  Int.fdiv (confirmations * 100) expectedConformations

/-- Progress-milestone status message sent by `sendProgress`. -/
def progressMessage (txHash : String) (milestone : Nat)
    (confirmations expectedConformations : Int) : String :=
  s!"Transaction {txHash} confirmation progress: {milestone}% ({confirmations}/{expectedConformations} confirmations)"

/-- `shouldSendProgress`: `false` when `expectedConformations ≤ 1`,
otherwise `true` iff some milestone is at most the current percentage and
strictly above `lastMilestonePercentage`. -/
def shouldSendProgress (expectedConformations : Int)
    (lastMilestonePercentage : Nat) (confirmations : Int) : Bool :=
  if expectedConformations ≤ 1 then false
  else
    milestonesList.any fun milestone =>
      decide ((milestone : Int) ≤
          progressPercentage confirmations expectedConformations) &&
        decide (lastMilestonePercentage < milestone)

/-- The body of `sendProgress`'s `for (const milestone of milestones)` loop:
if the percentage has reached `milestone` and the last announced milestone
is below it, announce it and record it as the last announced one. -/
def progressStep (txHash : String) (confirmations expectedConformations : Int)
    (acc : List (Nat × String) × Nat) (milestone : Nat) :
    List (Nat × String) × Nat :=
  if (milestone : Int) ≤ progressPercentage confirmations expectedConformations
      ∧ acc.2 < milestone then
    (acc.1 ++ [(milestone,
        progressMessage txHash milestone confirmations expectedConformations)],
      milestone)
  else acc

/-- `sendProgress(confirmations)`: announces, in table order, every
milestone the percentage has reached that is above
`lastMilestonePercentage`, returning the announced `(milestone, message)`
pairs and the updated `lastMilestonePercentage`. -/
def sendProgressRun (txHash : String) (expectedConformations confirmations : Int)
    (lastMilestonePercentage : Nat) : List (Nat × String) × Nat :=
  milestonesList.foldl (progressStep txHash confirmations expectedConformations)
    ([], lastMilestonePercentage)

/-- Message sent by the handler just before the reverted result. -/
def revertedReasonMessage (txHash revertReason : String) : String :=
  s!"Transaction {txHash} reverted: {revertReason}"

/-- Output of one iteration of the milestone handler: the milestones
announced (with their messages folded into `msgs`), all status messages
attempted, the updated `lastMilestonePercentage`, and `some` terminal
result or `none` when the body falls through to the sleep. -/
structure StepMOut : Type where
  milestones : List Nat
  msgs : List String
  last : Nat
  result : Option OutcomeM
  deriving Repr, DecidableEq

/-- One iteration of the MCP handler with milestone logic.  The
confirmation count is `Number(currentBlockNumber - txBlockNumber)` — no
`+ 1`.  The threshold test comes first; only at or above the threshold does
the handler branch on `receipt.status`, so its reverted result is also
gated behind the threshold.  In the reverted branch, `revertReason` starts
as `"Unknown"`; the transaction is fetched inside an inner `try` whose
errors are silently ignored, and if a transaction was obtained the call is
re-simulated at the inclusion block, a thrown error's message becoming the
revert reason.  `sendProgress` is invoked unconditionally on both terminal
paths and, guarded by `shouldSendProgress`, on the waiting path. -/
def stepM (txHash : String) (expectedConformations interval : Int)
    (lastMilestonePercentage : Nat) (obs : Obs) : StepMOut :=
  match obs.blockNumber with
  | .err e =>
    ⟨[], [errorCheckingMessage e], lastMilestonePercentage, none⟩
  | .ok currentBlockNumber =>
    match obs.receipt with
    | .err e =>
      ⟨[], [errorCheckingMessage e], lastMilestonePercentage, none⟩
    | .ok none =>
      ⟨[], [notMinedMessage txHash interval], lastMilestonePercentage, none⟩
    | .ok (some receipt) =>
      let txBlockNumber := receipt.blockNumber
      let confirmations : Int :=
        (currentBlockNumber : Int) - (txBlockNumber : Int)
      if confirmations ≥ expectedConformations then
        match receipt.status with
        | .success =>
          let prog := sendProgressRun txHash expectedConformations
            confirmations lastMilestonePercentage
          ⟨prog.1.map Prod.fst,
            prog.1.map Prod.snd ++ [confirmedMessage txHash confirmations],
            prog.2,
            some (.confirmed txHash receipt.blockNumber confirmations receipt)⟩
        | .reverted =>
          let revertReason : String :=
            match obs.transaction with
            | .err _ => "Unknown"
            | .ok none => "Unknown"
            | .ok (some _tx) =>
              match obs.callResult with
              | .err m => m
              | .ok _ => "Unknown"
          let prog := sendProgressRun txHash expectedConformations
            confirmations lastMilestonePercentage
          ⟨prog.1.map Prod.fst,
            prog.1.map Prod.snd ++
              [revertedReasonMessage txHash revertReason],
            prog.2,
            some (.reverted txHash receipt.blockNumber confirmations
              revertReason receipt)⟩
      else
        if shouldSendProgress expectedConformations lastMilestonePercentage
            confirmations then
          let prog := sendProgressRun txHash expectedConformations
            confirmations lastMilestonePercentage
          ⟨prog.1.map Prod.fst,
            prog.1.map Prod.snd ++
              [waitingMessage txHash txBlockNumber expectedConformations
                confirmations],
            prog.2, none⟩
        else
          ⟨[], [waitingMessage txHash txBlockNumber expectedConformations
              confirmations],
            lastMilestonePercentage, none⟩

/-- Number of iterations the `while (Date.now() - startTime < timeoutMs)`
loop executes when no iteration finalizes, in the timing model where
iteration `k` starts at elapsed time `k * intervalMs`: the least `k` with
`k * intervalMs ≥ timeoutMs`.  Meaningful only for `0 < intervalMs`
(with a non-positive interval and a positive timeout the real loop would
never exit on its own; the spec requires a positive `pollInterval`); for a
non-positive `timeoutMs` the condition already fails at `k = 0` and the
value is `0` whatever the interval. -/
def numIterations (timeoutMs intervalMs : Int) : Nat :=
  if 0 < timeoutMs ∧ 0 < intervalMs then
    (Int.fdiv (timeoutMs - 1) intervalMs + 1).toNat
  else 0

/-- In the same timing model, the elapsed time at which the loop condition
fails and the timeout result is produced. -/
def loopExitTimeMs (timeoutMs intervalMs : Int) : Int :=
  (numIterations timeoutMs intervalMs : Int) * intervalMs

/-- Timeout message / result payload of the first tool lineage
(`timeout` is the parameter in seconds). -/
def timeoutMessageV1 (timeout : Int) : String :=
  s!"Timeout reached after {timeout} seconds"

/-- Timeout error string of the second tool lineage (`timeoutMs` is the
parameter, already in milliseconds). -/
def timeoutErrorV2 (timeoutMs : Int) (txHash : String) : String :=
  s!"Timeout reached after {timeoutMs} milliseconds waiting for transaction {txHash}"

/-- The polling loop of the first tool lineage, with the remaining number
of iterations as fuel and `k` the index of the current iteration in the
observation stream. -/
def loopWFTC1 (txHash : String) (expectedConformations interval timeout : Int)
    (obss : Nat → Obs) : Nat → Nat → List String × OutcomeV1
  | 0, _ => ([], .timeout txHash (timeoutMessageV1 timeout))
  | fuel + 1, k =>
    match stepWFTC1 txHash expectedConformations interval (obss k) with
    | (msgs, some outcome) => (msgs, outcome)
    | (msgs, none) =>
      let rest := loopWFTC1 txHash expectedConformations interval timeout obss
        fuel (k + 1)
      (msgs ++ rest.1, rest.2)

/-- The first tool lineage end to end: `intervalMs = interval * 1000`,
`timeoutMs = timeout * 1000` (both parameters in seconds). -/
def runWFTC1 (txHash : String) (expectedConformations interval timeout : Int)
    (obss : Nat → Obs) : List String × OutcomeV1 :=
  loopWFTC1 txHash expectedConformations interval timeout obss
    (numIterations (timeout * 1000) (interval * 1000)) 0

/-- The polling loop of the second tool lineage. -/
def loopWFTC2 (txHash : String) (expectedConfirmations intervalSec timeoutMs : Int)
    (obss : Nat → Obs) : Nat → Nat → List String × OutcomeV2
  | 0, _ => ([], .timeoutError (timeoutErrorV2 timeoutMs txHash))
  | fuel + 1, k =>
    match stepWFTC2 txHash expectedConfirmations intervalSec (obss k) with
    | (msgs, some outcome) => (msgs, outcome)
    | (msgs, none) =>
      let rest := loopWFTC2 txHash expectedConfirmations intervalSec timeoutMs
        obss fuel (k + 1)
      (msgs ++ rest.1, rest.2)

/-- The second tool lineage end to end: its `timeout` parameter is already
in milliseconds, the interval parameter in seconds
(`intervalMs = intervalSec * 1000`). -/
def runWFTC2 (txHash : String) (expectedConfirmations intervalSec timeoutMs : Int)
    (obss : Nat → Obs) : List String × OutcomeV2 :=
  loopWFTC2 txHash expectedConfirmations intervalSec timeoutMs obss
    (numIterations timeoutMs (intervalSec * 1000)) 0

/-- Accumulated output of a run of the milestone handler: milestones
announced in order, status messages attempted in order, and the terminal
result. -/
structure RunMOut : Type where
  milestones : List Nat
  msgs : List String
  outcome : OutcomeM
  deriving Repr, DecidableEq

/-- The polling loop of the milestone handler, threading
`lastMilestonePercentage` through the iterations. -/
def loopM (txHash : String) (expectedConformations interval timeout : Int)
    (obss : Nat → Obs) : Nat → Nat → Nat → RunMOut
  | 0, _, _ => ⟨[], [], .timeout txHash (timeoutMessageV1 timeout)⟩
  | fuel + 1, k, last =>
    let out := stepM txHash expectedConformations interval last (obss k)
    match out.result with
    | some outcome => ⟨out.milestones, out.msgs, outcome⟩
    | none =>
      let rest := loopM txHash expectedConformations interval timeout obss
        fuel (k + 1) out.last
      ⟨out.milestones ++ rest.milestones, out.msgs ++ rest.msgs, rest.outcome⟩

/-- The milestone handler end to end (`interval` and `timeout` in seconds,
`lastMilestonePercentage` initialized to `0`). -/
def runM (txHash : String) (expectedConformations interval timeout : Int)
    (obss : Nat → Obs) : RunMOut :=
  loopM txHash expectedConformations interval timeout obss
    (numIterations (timeout * 1000) (interval * 1000)) 0 0

/-- `server.sendLoggingMessage` as the status wrappers see it: it either
succeeds or throws. -/
def sendLoggingMessage (fails : Bool) (_message : String) : Except String Unit :=
  if fails then .error "notification failed" else .ok ()

/-- The `sendStatus` wrapper (`createToolEnvironment` and the handlers):
`try { await server.sendLoggingMessage(...) } catch (error)
{ console.error('Error sending notification:', error) }`.  Whatever the
underlying send does, it returns unit; a failure only produces a console
line. -/
def sendStatusCatch (fails : Bool) (message : String) : Unit × List String :=
  match sendLoggingMessage fails message with
  | .ok _ => ((), [])
  | .error _ => ((), ["Error sending notification:"])

/-- A run of the milestone handler in which the `i`-th attempted status
send fails exactly when `reportFails i`: every attempted message goes
through `sendStatusCatch`, whose unit result is all the loop ever sees;
the console lines are the only additional output. -/
def runMWithReporting (reportFails : Nat → Bool) (txHash : String)
    (expectedConformations interval timeout : Int) (obss : Nat → Obs) :
    RunMOut × List String :=
  let r := runM txHash expectedConformations interval timeout obss
  (r, (r.msgs.enum.filterMap fun p =>
    ((sendStatusCatch (reportFails p.1) p.2).2).head?))

/-- The `confirmations` field of a terminal result of the first lineage
(`none` for the timeout result, which has no such field). -/
def OutcomeV1.confirmationsOf : OutcomeV1 → Option Int
  | .reverted _ _ c _ _ _ _ => some c
  | .confirmed _ _ _ c _ => some c
  | .timeout _ _ => none

/-- The `confirmations` field carried by the confirmed result of the first
lineage (`none` for the other results). -/
def OutcomeV1.confirmedCount : OutcomeV1 → Option Int
  | .confirmed _ _ _ c _ => some c
  | _ => none

/-- The `confirmations` field of a terminal result of the second lineage. -/
def OutcomeV2.confirmationsOf : OutcomeV2 → Option Int
  | .reverted _ _ c _ _ _ _ => some c
  | .confirmed _ _ _ c _ => some c
  | .timeoutError _ => none

/-- The `confirmations` field carried by the confirmed result of the
second lineage. -/
def OutcomeV2.confirmedCount : OutcomeV2 → Option Int
  | .confirmed _ _ _ c _ => some c
  | _ => none

/-- The `confirmations` field of a terminal result of the milestone
handler. -/
def OutcomeM.confirmationsOf : OutcomeM → Option Int
  | .confirmed _ _ c _ => some c
  | .reverted _ _ c _ _ => some c
  | .timeout _ _ => none

/-- The `confirmations` field carried by the confirmed result of the
milestone handler. -/
def OutcomeM.confirmedCount : OutcomeM → Option Int
  | .confirmed _ _ c _ => some c
  | _ => none

/-- Observation: current height 5, receipt in block 5 with reverted
status, transaction fetch returns nothing. -/
def obsRevertedAt5 : Obs :=
  ⟨.ok 5, .ok (some ⟨5, .reverted, 21000, 7⟩), .ok none, .ok ⟨99⟩, .ok ()⟩

/-- Observation: current height 11, successful receipt in block 10. -/
def obsSuccessAt10Cur11 : Obs :=
  ⟨.ok 11, .ok (some ⟨10, .success, 21000, 7⟩), .ok none, .ok ⟨99⟩, .ok ()⟩

/-- Observation: current height 10, reverted receipt in block 10. -/
def obsRevertedAt10Cur10 : Obs :=
  ⟨.ok 10, .ok (some ⟨10, .reverted, 21000, 7⟩), .ok none, .ok ⟨99⟩, .ok ()⟩

/-- Observation: current height 7, the transaction is not mined. -/
def obsNotMined : Obs := ⟨.ok 7, .ok none, .ok none, .ok ⟨0⟩, .ok ()⟩

/-- Observation: the `getBlockNumber` read throws. -/
def obsReadError : Obs := ⟨.err "boom", .ok none, .ok none, .ok ⟨0⟩, .ok ()⟩

/-- Observation: current height 11, reverted receipt in block 10, and the
`getTransaction` read of the revert-reason recovery throws. -/
def obsRecoveryError : Obs :=
  ⟨.ok 11, .ok (some ⟨10, .reverted, 21000, 7⟩), .err "boom", .ok ⟨99⟩, .ok ()⟩

theorem numIterations_lt_iff {timeoutMs intervalMs : Int}
    (hi : 0 < intervalMs) (k : Nat) :
    (k : Int) * intervalMs < timeoutMs ↔ k < numIterations timeoutMs intervalMs := by
  unfold numIterations
  by_cases hT : 0 < timeoutMs
  · simp only [hT, hi, and_self, if_true]
    rw [Int.fdiv_eq_ediv _ (le_of_lt hi)]
    have hq0 : (0 : Int) ≤ (timeoutMs - 1) / intervalMs :=
      Int.ediv_nonneg (by omega) (le_of_lt hi)
    constructor
    · intro h
      have hq : (k : Int) ≤ (timeoutMs - 1) / intervalMs := by
        rw [Int.le_ediv_iff_mul_le hi]; omega
      omega
    · intro h
      have hq : (k : Int) ≤ (timeoutMs - 1) / intervalMs := by omega
      rw [Int.le_ediv_iff_mul_le hi] at hq
      omega
  · simp only [hT, false_and, if_false]
    have : (0 : Int) ≤ (k : Int) * intervalMs :=
      mul_nonneg (Int.natCast_nonneg k) (le_of_lt hi)
    omega

theorem loopExitTimeMs_bounds {timeoutMs intervalMs : Int}
    (hi : 0 < intervalMs) (hT : 0 ≤ timeoutMs) :
    timeoutMs ≤ loopExitTimeMs timeoutMs intervalMs ∧
      loopExitTimeMs timeoutMs intervalMs < timeoutMs + intervalMs := by
  unfold loopExitTimeMs
  constructor
  · have h := @numIterations_lt_iff timeoutMs intervalMs hi
      (numIterations timeoutMs intervalMs)
    simp only [lt_self_iff_false, iff_false, not_lt] at h
    exact h
  · rcases Nat.eq_zero_or_pos (numIterations timeoutMs intervalMs) with h0 | hpos
    · rw [h0]; push_cast; omega
    · obtain ⟨M, hM⟩ : ∃ M, numIterations timeoutMs intervalMs = M + 1 :=
        ⟨numIterations timeoutMs intervalMs - 1, by omega⟩
      have h := (@numIterations_lt_iff timeoutMs intervalMs hi M).mpr (by omega)
      rw [hM]
      push_cast
      nlinarith

theorem progressFold_inv (txHash : String) (c e : Int) (l : Nat)
    (ms : List Nat) (acc : List (Nat × String) × Nat)
    (h1 : List.Pairwise (· < ·) (acc.1.map Prod.fst))
    (h2 : ∀ x ∈ acc.1.map Prod.fst, l < x ∧ x ≤ acc.2)
    (h3 : l ≤ acc.2) :
    List.Pairwise (· < ·)
        ((ms.foldl (progressStep txHash c e) acc).1.map Prod.fst) ∧
      (∀ x ∈ (ms.foldl (progressStep txHash c e) acc).1.map Prod.fst,
        l < x ∧ x ≤ (ms.foldl (progressStep txHash c e) acc).2) ∧
      l ≤ (ms.foldl (progressStep txHash c e) acc).2 ∧
      (∀ x ∈ (ms.foldl (progressStep txHash c e) acc).1.map Prod.fst,
        x ∈ acc.1.map Prod.fst ∨ x ∈ ms) := by
  induction ms generalizing acc with
  | nil => exact ⟨h1, h2, h3, fun x hx => Or.inl hx⟩
  | cons m tail ih =>
    simp only [List.foldl_cons]
    by_cases hcond : (m : Int) ≤ progressPercentage c e ∧ acc.2 < m
    · have hstep : progressStep txHash c e acc m =
          (acc.1 ++ [(m, progressMessage txHash m c e)], m) := by
        unfold progressStep; rw [if_pos hcond]
      rw [hstep]
      have h1' : List.Pairwise (· < ·)
          (((acc.1 ++ [(m, progressMessage txHash m c e)]).map Prod.fst)) := by
        rw [List.map_append, List.pairwise_append]
        refine ⟨h1, by simp, ?_⟩
        intro a ha b hb
        simp only [List.map_cons, List.map_nil, List.mem_singleton] at hb
        subst hb
        exact lt_of_le_of_lt (h2 a ha).2 hcond.2
      have h2' : ∀ x ∈ ((acc.1 ++ [(m, progressMessage txHash m c e)]).map
          Prod.fst), l < x ∧ x ≤ m := by
        intro x hx
        rw [List.map_append, List.mem_append] at hx
        rcases hx with hx | hx
        · exact ⟨(h2 x hx).1, le_of_lt (lt_of_le_of_lt (h2 x hx).2 hcond.2)⟩
        · simp only [List.map_cons, List.map_nil, List.mem_singleton] at hx
          subst hx
          exact ⟨lt_of_le_of_lt h3 hcond.2, le_refl _⟩
      have h3' : l ≤ m := le_of_lt (lt_of_le_of_lt h3 hcond.2)
      obtain ⟨g1, g2, g3, g4⟩ :=
        ih (acc.1 ++ [(m, progressMessage txHash m c e)], m) h1' h2' h3'
      refine ⟨g1, g2, g3, ?_⟩
      intro x hx
      rcases g4 x hx with hx' | hx'
      · rw [List.map_append, List.mem_append] at hx'
        rcases hx' with hx' | hx'
        · exact Or.inl hx'
        · simp only [List.map_cons, List.map_nil, List.mem_singleton] at hx'
          exact Or.inr (by simp [hx'])
      · exact Or.inr (List.mem_cons_of_mem m hx')
    · have hstep : progressStep txHash c e acc m = acc := by
        unfold progressStep; rw [if_neg hcond]
      rw [hstep]
      obtain ⟨g1, g2, g3, g4⟩ := ih _ h1 h2 h3
      refine ⟨g1, g2, g3, ?_⟩
      intro x hx
      rcases g4 x hx with hx' | hx'
      · exact Or.inl hx'
      · exact Or.inr (List.mem_cons_of_mem m hx')

theorem sendProgressRun_spec (txHash : String) (e c : Int) (l : Nat) :
    List.Pairwise (· < ·) ((sendProgressRun txHash e c l).1.map Prod.fst) ∧
      (∀ x ∈ (sendProgressRun txHash e c l).1.map Prod.fst,
        l < x ∧ x ≤ (sendProgressRun txHash e c l).2) ∧
      l ≤ (sendProgressRun txHash e c l).2 ∧
      (∀ x ∈ (sendProgressRun txHash e c l).1.map Prod.fst,
        x ∈ milestonesList) := by
  obtain ⟨g1, g2, g3, g4⟩ := progressFold_inv txHash c e l milestonesList
    ([], l) (by simp) (by simp) (le_refl l)
  refine ⟨g1, g2, g3, ?_⟩
  intro x hx
  rcases g4 x hx with hx' | hx'
  · simp at hx'
  · exact hx'

theorem stepM_shape (txHash : String) (e i : Int) (l : Nat) (obs : Obs) :
    ((stepM txHash e i l obs).milestones = [] ∧
        (stepM txHash e i l obs).last = l) ∨
      ∃ c, (stepM txHash e i l obs).milestones =
          (sendProgressRun txHash e c l).1.map Prod.fst ∧
        (stepM txHash e i l obs).last = (sendProgressRun txHash e c l).2 := by
  obtain ⟨bn, rc, tx, bl, cr⟩ := obs
  cases bn with
  | err eb => left; simp [stepM]
  | ok cur =>
    cases rc with
    | err eb => left; simp [stepM]
    | ok orc =>
      cases orc with
      | none => left; simp [stepM]
      | some receipt =>
        by_cases hth : ((cur : Int) - (receipt.blockNumber : Int)) ≥ e
        · cases hst : receipt.status with
          | success =>
            right
            exact ⟨(cur : Int) - (receipt.blockNumber : Int),
              by simp [stepM, hth, hst]⟩
          | reverted =>
            right
            refine ⟨(cur : Int) - (receipt.blockNumber : Int), ?_⟩
            cases tx with
            | err eb => simp [stepM, hth, hst]
            | ok otx =>
              cases otx with
              | none => simp [stepM, hth, hst]
              | some t =>
                cases cr with
                | err m => simp [stepM, hth, hst]
                | ok u => simp [stepM, hth, hst]
        · by_cases hsp : shouldSendProgress e l
              ((cur : Int) - (receipt.blockNumber : Int))
          · right
            exact ⟨(cur : Int) - (receipt.blockNumber : Int),
              by simp [stepM, hth, hsp]⟩
          · left; simp [stepM, hth, hsp]

theorem stepM_milestones_spec (txHash : String) (e i : Int) (l : Nat)
    (obs : Obs) :
    List.Pairwise (· < ·) (stepM txHash e i l obs).milestones ∧
      (∀ x ∈ (stepM txHash e i l obs).milestones,
        l < x ∧ x ≤ (stepM txHash e i l obs).last ∧ x ∈ milestonesList) ∧
      l ≤ (stepM txHash e i l obs).last := by
  rcases stepM_shape txHash e i l obs with ⟨h1, h2⟩ | ⟨c, h1, h2⟩
  · rw [h1, h2]; exact ⟨List.Pairwise.nil, by simp, le_refl l⟩
  · rw [h1, h2]
    obtain ⟨g1, g2, g3, g4⟩ := sendProgressRun_spec txHash e c l
    exact ⟨g1, fun x hx => ⟨(g2 x hx).1, (g2 x hx).2, g4 x hx⟩, g3⟩

theorem loopM_milestones_spec (txHash : String) (e i t : Int)
    (obss : Nat → Obs) :
    ∀ fuel k l,
      List.Pairwise (· < ·) (loopM txHash e i t obss fuel k l).milestones ∧
        (∀ x ∈ (loopM txHash e i t obss fuel k l).milestones,
          l < x ∧ x ∈ milestonesList) := by
  intro fuel
  induction fuel with
  | zero => intro k l; simp [loopM]
  | succ fuel ih =>
    intro k l
    simp only [loopM]
    obtain ⟨s1, s2, s3⟩ := stepM_milestones_spec txHash e i l (obss k)
    cases hres : (stepM txHash e i l (obss k)).result with
    | some outcome =>
      simp only [hres]
      exact ⟨s1, fun x hx => ⟨(s2 x hx).1, (s2 x hx).2.2⟩⟩
    | none =>
      simp only [hres]
      obtain ⟨r1, r2⟩ := ih (k + 1) ((stepM txHash e i l (obss k)).last)
      constructor
      · rw [List.pairwise_append]
        exact ⟨s1, r1, fun a ha b hb =>
          lt_of_le_of_lt (s2 a ha).2.1 (r2 b hb).1⟩
      · intro x hx
        rw [List.mem_append] at hx
        rcases hx with hx | hx
        · exact ⟨(s2 x hx).1, (s2 x hx).2.2⟩
        · exact ⟨lt_of_le_of_lt s3 (r2 x hx).1, (r2 x hx).2⟩

theorem stepWFTC1_result_char (txHash : String) (e i : Int) (obs : Obs)
    (o : OutcomeV1) (h : (stepWFTC1 txHash e i obs).2 = some o) :
    ∃ cur r, obs.blockNumber = .ok cur ∧ obs.receipt = .ok (some r) ∧
      ((∃ t, obs.transaction = .ok t ∧ r.status = .reverted ∧
          o = .reverted txHash r.blockNumber
            ((cur : Int) - (r.blockNumber : Int)) r (toString r.gasUsed)
            (toString r.effectiveGasPrice) t) ∨
        (∃ b, obs.block = .ok b ∧ r.status = .success ∧
          e ≤ (cur : Int) - (r.blockNumber : Int) ∧
          o = .confirmed txHash r.blockNumber b.timestamp
            ((cur : Int) - (r.blockNumber : Int)) r)) := by
  obtain ⟨bn, rc, tx, bl, cr⟩ := obs
  cases bn with
  | err eb => simp [stepWFTC1] at h
  | ok cur =>
    cases rc with
    | err eb => simp [stepWFTC1] at h
    | ok orc =>
      cases orc with
      | none => simp [stepWFTC1] at h
      | some r =>
        refine ⟨cur, r, rfl, rfl, ?_⟩
        cases hst : r.status with
        | reverted =>
          cases tx with
          | err eb => simp [stepWFTC1, hst] at h
          | ok t =>
            left
            refine ⟨t, rfl, rfl, ?_⟩
            simp [stepWFTC1, hst] at h
            exact h.symm
        | success =>
          cases bl with
          | err eb => simp [stepWFTC1, hst] at h
          | ok b =>
            right
            by_cases hth : (cur : Int) - (r.blockNumber : Int) ≥ e
            · refine ⟨b, rfl, rfl, hth, ?_⟩
              simp [stepWFTC1, hst, hth] at h
              exact h.symm
            · simp [stepWFTC1, hst, hth] at h

theorem stepWFTC2_result_char (txHash : String) (e i : Int) (obs : Obs)
    (o : OutcomeV2) (h : (stepWFTC2 txHash e i obs).2 = some o) :
    ∃ cur r, obs.blockNumber = .ok cur ∧ obs.receipt = .ok (some r) ∧
      ((∃ t, obs.transaction = .ok t ∧ r.status = .reverted ∧
          o = .reverted txHash r.blockNumber
            ((cur : Int) - (r.blockNumber : Int) + 1) r (toString r.gasUsed)
            (toString r.effectiveGasPrice) t) ∨
        (∃ b, obs.block = .ok b ∧ r.status = .success ∧
          e ≤ (cur : Int) - (r.blockNumber : Int) + 1 ∧
          o = .confirmed txHash r.blockNumber b.timestamp
            ((cur : Int) - (r.blockNumber : Int) + 1) r)) := by
  obtain ⟨bn, rc, tx, bl, cr⟩ := obs
  cases bn with
  | err eb => simp [stepWFTC2] at h
  | ok cur =>
    cases rc with
    | err eb => simp [stepWFTC2] at h
    | ok orc =>
      cases orc with
      | none => simp [stepWFTC2] at h
      | some r =>
        refine ⟨cur, r, rfl, rfl, ?_⟩
        cases hst : r.status with
        | reverted =>
          cases tx with
          | err eb => simp [stepWFTC2, hst] at h
          | ok t =>
            left
            refine ⟨t, rfl, rfl, ?_⟩
            simp [stepWFTC2, hst] at h
            exact h.symm
        | success =>
          cases bl with
          | err eb => simp [stepWFTC2, hst] at h
          | ok b =>
            right
            by_cases hth : (cur : Int) - (r.blockNumber : Int) + 1 ≥ e
            · refine ⟨b, rfl, rfl, hth, ?_⟩
              simp [stepWFTC2, hst, hth] at h
              exact h.symm
            · simp [stepWFTC2, hst, hth] at h

theorem stepM_result_char (txHash : String) (e i : Int) (l : Nat) (obs : Obs)
    (o : OutcomeM) (h : (stepM txHash e i l obs).result = some o) :
    ∃ cur r, obs.blockNumber = .ok cur ∧ obs.receipt = .ok (some r) ∧
      e ≤ (cur : Int) - (r.blockNumber : Int) ∧
      ((r.status = .success ∧
          o = .confirmed txHash r.blockNumber
            ((cur : Int) - (r.blockNumber : Int)) r) ∨
        (∃ rr, r.status = .reverted ∧
          o = .reverted txHash r.blockNumber
            ((cur : Int) - (r.blockNumber : Int)) rr r ∧
          (rr = "Unknown" ∨ ∃ m, obs.callResult = .err m ∧ rr = m))) := by
  obtain ⟨bn, rc, tx, bl, cr⟩ := obs
  cases bn with
  | err eb => simp [stepM] at h
  | ok cur =>
    cases rc with
    | err eb => simp [stepM] at h
    | ok orc =>
      cases orc with
      | none => simp [stepM] at h
      | some r =>
        by_cases hth : (cur : Int) - (r.blockNumber : Int) ≥ e
        · refine ⟨cur, r, rfl, rfl, hth, ?_⟩
          cases hst : r.status with
          | success =>
            left
            simp [stepM, hst, hth] at h
            exact ⟨rfl, h.symm⟩
          | reverted =>
            right
            cases tx with
            | err eb =>
              refine ⟨"Unknown", rfl, ?_, Or.inl rfl⟩
              simp [stepM, hst, hth] at h
              exact h.symm
            | ok otx =>
              cases otx with
              | none =>
                refine ⟨"Unknown", rfl, ?_, Or.inl rfl⟩
                simp [stepM, hst, hth] at h
                exact h.symm
              | some t =>
                cases cr with
                | err m =>
                  refine ⟨m, rfl, ?_, Or.inr ⟨m, rfl, rfl⟩⟩
                  simp [stepM, hst, hth] at h
                  exact h.symm
                | ok u =>
                  refine ⟨"Unknown", rfl, ?_, Or.inl rfl⟩
                  simp [stepM, hst, hth] at h
                  exact h.symm
        · exfalso
          by_cases hsp : shouldSendProgress e l
              ((cur : Int) - (r.blockNumber : Int))
          · simp [stepM, hth, hsp] at h
          · simp [stepM, hth, hsp] at h

theorem loopWFTC1_outcome (txHash : String) (e i t : Int) (obss : Nat → Obs) :
    ∀ fuel k, (loopWFTC1 txHash e i t obss fuel k).2 =
        .timeout txHash (timeoutMessageV1 t) ∨
      ∃ j, (stepWFTC1 txHash e i (obss j)).2 =
        some (loopWFTC1 txHash e i t obss fuel k).2 := by
  intro fuel
  induction fuel with
  | zero => intro k; left; rfl
  | succ fuel ih =>
    intro k
    simp only [loopWFTC1]
    cases hres : stepWFTC1 txHash e i (obss k) with
    | mk msgs res =>
      cases res with
      | some outcome =>
        right
        exact ⟨k, by rw [hres]⟩
      | none =>
        rcases ih (k + 1) with h | ⟨j, hj⟩
        · left; exact h
        · right; exact ⟨j, hj⟩

theorem loopWFTC2_outcome (txHash : String) (e i t : Int) (obss : Nat → Obs) :
    ∀ fuel k, (loopWFTC2 txHash e i t obss fuel k).2 =
        .timeoutError (timeoutErrorV2 t txHash) ∨
      ∃ j, (stepWFTC2 txHash e i (obss j)).2 =
        some (loopWFTC2 txHash e i t obss fuel k).2 := by
  intro fuel
  induction fuel with
  | zero => intro k; left; rfl
  | succ fuel ih =>
    intro k
    simp only [loopWFTC2]
    cases hres : stepWFTC2 txHash e i (obss k) with
    | mk msgs res =>
      cases res with
      | some outcome =>
        right
        exact ⟨k, by rw [hres]⟩
      | none =>
        rcases ih (k + 1) with h | ⟨j, hj⟩
        · left; exact h
        · right; exact ⟨j, hj⟩

theorem loopM_outcome (txHash : String) (e i t : Int) (obss : Nat → Obs) :
    ∀ fuel k l, (loopM txHash e i t obss fuel k l).outcome =
        .timeout txHash (timeoutMessageV1 t) ∨
      ∃ j last, (stepM txHash e i last (obss j)).result =
        some (loopM txHash e i t obss fuel k l).outcome := by
  intro fuel
  induction fuel with
  | zero => intro k l; left; rfl
  | succ fuel ih =>
    intro k l
    simp only [loopM]
    cases hres : (stepM txHash e i l (obss k)).result with
    | some outcome =>
      right
      exact ⟨k, l, by rw [hres]⟩
    | none =>
      rcases ih (k + 1) ((stepM txHash e i l (obss k)).last) with h | ⟨j, last, hj⟩
      · left; exact h
      · right; exact ⟨j, last, hj⟩

theorem stepWFTC1_none_of_noReceipt (txHash : String) (e i : Int) (obs : Obs)
    (h : obs.receipt = .ok none) : (stepWFTC1 txHash e i obs).2 = none := by
  obtain ⟨bn, rc, tx, bl, cr⟩ := obs
  cases bn with
  | err eb => simp [stepWFTC1]
  | ok cur => simp at h; subst h; simp [stepWFTC1]

theorem stepWFTC2_none_of_noReceipt (txHash : String) (e i : Int) (obs : Obs)
    (h : obs.receipt = .ok none) : (stepWFTC2 txHash e i obs).2 = none := by
  obtain ⟨bn, rc, tx, bl, cr⟩ := obs
  cases bn with
  | err eb => simp [stepWFTC2]
  | ok cur => simp at h; subst h; simp [stepWFTC2]

theorem stepM_none_of_noReceipt (txHash : String) (e i : Int) (l : Nat)
    (obs : Obs) (h : obs.receipt = .ok none) :
    (stepM txHash e i l obs).result = none := by
  obtain ⟨bn, rc, tx, bl, cr⟩ := obs
  cases bn with
  | err eb => simp [stepM]
  | ok cur => simp at h; subst h; simp [stepM]

theorem loopWFTC1_timeout_of_noReceipt (txHash : String) (e i t : Int)
    (obss : Nat → Obs) (h : ∀ k, (obss k).receipt = .ok none) :
    ∀ fuel k, (loopWFTC1 txHash e i t obss fuel k).2 =
      .timeout txHash (timeoutMessageV1 t) := by
  intro fuel
  induction fuel with
  | zero => intro k; rfl
  | succ fuel ih =>
    intro k
    simp only [loopWFTC1]
    cases hres : stepWFTC1 txHash e i (obss k) with
    | mk msgs res =>
      cases res with
      | some outcome =>
        have := stepWFTC1_none_of_noReceipt txHash e i (obss k) (h k)
        rw [hres] at this
        simp at this
      | none => exact ih (k + 1)

theorem loopWFTC2_timeout_of_noReceipt (txHash : String) (e i t : Int)
    (obss : Nat → Obs) (h : ∀ k, (obss k).receipt = .ok none) :
    ∀ fuel k, (loopWFTC2 txHash e i t obss fuel k).2 =
      .timeoutError (timeoutErrorV2 t txHash) := by
  intro fuel
  induction fuel with
  | zero => intro k; rfl
  | succ fuel ih =>
    intro k
    simp only [loopWFTC2]
    cases hres : stepWFTC2 txHash e i (obss k) with
    | mk msgs res =>
      cases res with
      | some outcome =>
        have := stepWFTC2_none_of_noReceipt txHash e i (obss k) (h k)
        rw [hres] at this
        simp at this
      | none => exact ih (k + 1)

theorem loopM_timeout_of_noReceipt (txHash : String) (e i t : Int)
    (obss : Nat → Obs) (h : ∀ k, (obss k).receipt = .ok none) :
    ∀ fuel k l, (loopM txHash e i t obss fuel k l).outcome =
      .timeout txHash (timeoutMessageV1 t) := by
  intro fuel
  induction fuel with
  | zero => intro k l; rfl
  | succ fuel ih =>
    intro k l
    simp only [loopM]
    cases hres : (stepM txHash e i l (obss k)).result with
    | some outcome =>
      have := stepM_none_of_noReceipt txHash e i l (obss k) (h k)
      rw [hres] at this
      simp at this
    | none => exact ih (k + 1) _

theorem shouldSendProgress_eq_false_of_le_one (e : Int) (l : Nat) (c : Int)
    (he : e ≤ 1) : shouldSendProgress e l c = false := by
  unfold shouldSendProgress
  rw [if_pos he]

theorem numIterations_eq_zero_of_nonpos {timeoutMs : Int}
    (intervalMs : Int) (h : timeoutMs ≤ 0) :
    numIterations timeoutMs intervalMs = 0 := by
  unfold numIterations
  rw [if_neg]
  rintro ⟨hT, _⟩
  omega

/-- C1, counterexample: at current height 5 with the receipt in block 5,
the first tool lineage finalizes a reverted result whose `confirmations`
field is `0`, and the milestone handler's waiting message is likewise
computed with confirmation count `0`, whereas the claimed formula
`(5 - 5) + 1` gives `1`. -/
theorem c1_counterexample :
    (stepWFTC1 "0xh" 1 1 obsRevertedAt5).2 =
        some (.reverted "0xh" 5 0 ⟨5, .reverted, 21000, 7⟩ "21000" "7" none) ∧
      (stepM "0xh" 1 1 0 obsRevertedAt5).msgs = [waitingMessage "0xh" 5 1 0] ∧
      ((5 : Int) - 5 + 1 = 1 ∧ (0 : Int) ≠ 1) := by
  refine ⟨by decide, by decide, by decide, by decide⟩

/-- C1 (amended): once a receipt exists, the second tool lineage computes
the confirmation count of every terminal result as
`(currentBlockHeight − inclusionBlockHeight) + 1`, while the first tool
lineage and the MCP milestone handler compute it as
`currentBlockHeight − inclusionBlockHeight`, without the `+ 1`. -/
theorem c1_amended_confirmation_formulas (txHash : String) (e i : Int)
    (l : Nat) (obs : Obs) (cur : Nat) (r : Receipt)
    (hbn : obs.blockNumber = .ok cur) (hrc : obs.receipt = .ok (some r)) :
    (∀ o, (stepWFTC1 txHash e i obs).2 = some o →
      o.confirmationsOf = some ((cur : Int) - (r.blockNumber : Int))) ∧
      (∀ o, (stepWFTC2 txHash e i obs).2 = some o →
        o.confirmationsOf = some ((cur : Int) - (r.blockNumber : Int) + 1)) ∧
      (∀ o, (stepM txHash e i l obs).result = some o →
        o.confirmationsOf = some ((cur : Int) - (r.blockNumber : Int))) := by
  refine ⟨?_, ?_, ?_⟩
  · intro o h
    obtain ⟨cur2, r2, hbn2, hrc2, hcase⟩ := stepWFTC1_result_char txHash e i obs o h
    rw [hbn] at hbn2
    rw [hrc] at hrc2
    simp only [ChainAnswer.ok.injEq] at hbn2
    simp only [ChainAnswer.ok.injEq, Option.some.injEq] at hrc2
    subst hbn2
    subst hrc2
    rcases hcase with ⟨t, _, _, ho⟩ | ⟨b, _, _, _, ho⟩ <;>
      simp [ho, OutcomeV1.confirmationsOf]
  · intro o h
    obtain ⟨cur2, r2, hbn2, hrc2, hcase⟩ := stepWFTC2_result_char txHash e i obs o h
    rw [hbn] at hbn2
    rw [hrc] at hrc2
    simp only [ChainAnswer.ok.injEq] at hbn2
    simp only [ChainAnswer.ok.injEq, Option.some.injEq] at hrc2
    subst hbn2
    subst hrc2
    rcases hcase with ⟨t, _, _, ho⟩ | ⟨b, _, _, _, ho⟩ <;>
      simp [ho, OutcomeV2.confirmationsOf]
  · intro o h
    obtain ⟨cur2, r2, hbn2, hrc2, _, hcase⟩ := stepM_result_char txHash e i l obs o h
    rw [hbn] at hbn2
    rw [hrc] at hrc2
    simp only [ChainAnswer.ok.injEq] at hbn2
    simp only [ChainAnswer.ok.injEq, Option.some.injEq] at hrc2
    subst hbn2
    subst hrc2
    rcases hcase with ⟨_, ho⟩ | ⟨rr, _, ho, _⟩ <;>
      simp [ho, OutcomeM.confirmationsOf]

/-- C1 amended, witness: the reverted result of the first lineage at
current height 5 and inclusion block 5 carries confirmation count 5 − 5. -/
theorem c1_amended_confirmation_formulas_witness :
    (OutcomeV1.reverted "0xh" 5 0 ⟨5, .reverted, 21000, 7⟩ "21000" "7"
        none).confirmationsOf = some ((5 : Int) - (5 : Int)) :=
  (c1_amended_confirmation_formulas "0xh" 1 1 0 obsRevertedAt5 5
    ⟨5, .reverted, 21000, 7⟩ rfl rfl).1 _ (by decide)

/-- C2, counterexample: a transaction whose receipt indicates failed
execution at every poll (reverted in block 10, current height stuck at 10,
so the confirmation count 0 never reaches the threshold 5) makes the
milestone handler time out after 3 seconds without ever returning a
reverted result — its reverted classification is *not* issued regardless
of the confirmation threshold. -/
theorem c2_counterexample :
    (obsRevertedAt10Cur10.receipt =
        .ok (some ⟨10, .reverted, 21000, 7⟩)) ∧
      (⟨10, .reverted, 21000, 7⟩ : Receipt).status = .reverted ∧
      (runM "0xh" 5 1 3 (fun _ => obsRevertedAt10Cur10)).outcome =
        .timeout "0xh" (timeoutMessageV1 3) := by
  refine ⟨by decide, by decide, by decide⟩

/-- C2 (amended): the milestone handler returns its reverted result only
once the confirmation count has reached the threshold, and then always
with a revert reason that is either the fallback `"Unknown"` or the error
message recovered from re-simulating the call; both tool lineages return
their reverted result as soon as a reverted receipt is seen, independent
of the threshold, but that result carries no revert-reason field at
all. -/
theorem c2_amended_revert_classification (txHash : String) (e i : Int)
    (l : Nat) (obs : Obs) :
    (∀ h bn c rr rcpt,
      (stepM txHash e i l obs).result = some (.reverted h bn c rr rcpt) →
        e ≤ c ∧ (rr = "Unknown" ∨ ∃ m, obs.callResult = .err m ∧ rr = m)) ∧
      (∀ cur r t, obs.blockNumber = .ok cur → obs.receipt = .ok (some r) →
        r.status = .reverted → obs.transaction = .ok t →
        (stepWFTC1 txHash e i obs).2 =
          some (.reverted txHash r.blockNumber
            ((cur : Int) - (r.blockNumber : Int)) r (toString r.gasUsed)
            (toString r.effectiveGasPrice) t)) ∧
      (∀ cur r t, obs.blockNumber = .ok cur → obs.receipt = .ok (some r) →
        r.status = .reverted → obs.transaction = .ok t →
        (stepWFTC2 txHash e i obs).2 =
          some (.reverted txHash r.blockNumber
            ((cur : Int) - (r.blockNumber : Int) + 1) r (toString r.gasUsed)
            (toString r.effectiveGasPrice) t)) := by
  refine ⟨?_, ?_, ?_⟩
  · intro h bn c rr rcpt hres
    obtain ⟨cur, r, hbn, hrc, hth, hcase⟩ :=
      stepM_result_char txHash e i l obs _ hres
    rcases hcase with ⟨_, ho⟩ | ⟨rr2, _, ho, hrr⟩
    · exact absurd ho (by simp)
    · injection ho with e1 e2 e3 e4 e5
      subst e3
      subst e4
      exact ⟨hth, hrr⟩
  · intro cur r t hbn hrc hst htx
    obtain ⟨bn, rc, tx, bl, cr⟩ := obs
    simp only at hbn hrc htx
    subst hbn
    subst hrc
    subst htx
    simp [stepWFTC1, hst]
  · intro cur r t hbn hrc hst htx
    obtain ⟨bn, rc, tx, bl, cr⟩ := obs
    simp only at hbn hrc htx
    subst hbn
    subst hrc
    subst htx
    simp [stepWFTC2, hst]

/-- C2 amended, witness: with threshold 0 already met and no transaction
details available, the milestone handler's reverted result carries the
fallback reason `"Unknown"`. -/
theorem c2_amended_revert_classification_witness :
    (0 : Int) ≤ 0 ∧
      ("Unknown" = "Unknown" ∨
        ∃ m, obsRevertedAt10Cur10.callResult = .err m ∧ "Unknown" = m) :=
  (c2_amended_revert_classification "0xh" 0 1 0 obsRevertedAt10Cur10).1
    "0xh" 10 0 "Unknown" ⟨10, .reverted, 21000, 7⟩ (by decide)

/-- C3: a transaction that never acquires a receipt — which is what the
monitor observes when its transaction has been replaced by a same-sender
same-nonce transaction, since no implementation ever fetches a block's
transaction list or compares sender/nonce — is classified as a timeout by
all three implementations; no replaced classification exists in the code. -/
theorem c3_replacement_never_reported :
    (runWFTC1 "0xorig" 1 1 3 (fun _ => obsNotMined)).2 =
        .timeout "0xorig" (timeoutMessageV1 3) ∧
      (runWFTC2 "0xorig" 1 1 3000 (fun _ => obsNotMined)).2 =
        .timeoutError (timeoutErrorV2 3000 "0xorig") ∧
      (runM "0xorig" 1 1 3 (fun _ => obsNotMined)).outcome =
        .timeout "0xorig" (timeoutMessageV1 3) := by
  refine ⟨by decide, by decide, by decide⟩

/-- C4: in all three implementations, a confirmed result — whether of a
single iteration or of a whole run — always carries a confirmation count
at least the expected number of confirmations; no iteration with a smaller
computed count can produce it. -/
theorem c4_confirmed_only_at_threshold (txHash : String) (e i t : Int)
    (l : Nat) (obs : Obs) (obss : Nat → Obs) :
    (∀ o c, (stepWFTC1 txHash e i obs).2 = some o →
      o.confirmedCount = some c → e ≤ c) ∧
      (∀ o c, (stepWFTC2 txHash e i obs).2 = some o →
        o.confirmedCount = some c → e ≤ c) ∧
      (∀ o c, (stepM txHash e i l obs).result = some o →
        o.confirmedCount = some c → e ≤ c) ∧
      (∀ c, (runWFTC1 txHash e i t obss).2.confirmedCount = some c → e ≤ c) ∧
      (∀ c, (runWFTC2 txHash e i t obss).2.confirmedCount = some c → e ≤ c) ∧
      (∀ c, (runM txHash e i t obss).outcome.confirmedCount = some c → e ≤ c) := by
  have h1 : ∀ obs2 o c, (stepWFTC1 txHash e i obs2).2 = some o →
      o.confirmedCount = some c → e ≤ c := by
    intro obs2 o c h hc
    obtain ⟨cur, r, _, _, hcase⟩ := stepWFTC1_result_char txHash e i obs2 o h
    rcases hcase with ⟨_, _, _, ho⟩ | ⟨b, _, _, hth, ho⟩
    · rw [ho] at hc
      simp [OutcomeV1.confirmedCount] at hc
    · rw [ho] at hc
      simp only [OutcomeV1.confirmedCount, Option.some.injEq] at hc
      omega
  have h2 : ∀ obs2 o c, (stepWFTC2 txHash e i obs2).2 = some o →
      o.confirmedCount = some c → e ≤ c := by
    intro obs2 o c h hc
    obtain ⟨cur, r, _, _, hcase⟩ := stepWFTC2_result_char txHash e i obs2 o h
    rcases hcase with ⟨_, _, _, ho⟩ | ⟨b, _, _, hth, ho⟩
    · rw [ho] at hc
      simp [OutcomeV2.confirmedCount] at hc
    · rw [ho] at hc
      simp only [OutcomeV2.confirmedCount, Option.some.injEq] at hc
      omega
  have h3 : ∀ l2 obs2 o c, (stepM txHash e i l2 obs2).result = some o →
      o.confirmedCount = some c → e ≤ c := by
    intro l2 obs2 o c h hc
    obtain ⟨cur, r, _, _, hth, hcase⟩ := stepM_result_char txHash e i l2 obs2 o h
    rcases hcase with ⟨_, ho⟩ | ⟨rr, _, ho, _⟩
    · rw [ho] at hc
      simp only [OutcomeM.confirmedCount, Option.some.injEq] at hc
      omega
    · rw [ho] at hc
      simp [OutcomeM.confirmedCount] at hc
  refine ⟨h1 obs, h2 obs, h3 l obs, ?_, ?_, ?_⟩
  · intro c hc
    rcases loopWFTC1_outcome txHash e i t obss
        (numIterations (t * 1000) (i * 1000)) 0 with h | ⟨j, hj⟩
    · rw [show (runWFTC1 txHash e i t obss).2 =
          (loopWFTC1 txHash e i t obss
            (numIterations (t * 1000) (i * 1000)) 0).2 from rfl, h] at hc
      simp [OutcomeV1.confirmedCount] at hc
    · exact h1 (obss j) _ c hj hc
  · intro c hc
    rcases loopWFTC2_outcome txHash e i t obss
        (numIterations t (i * 1000)) 0 with h | ⟨j, hj⟩
    · rw [show (runWFTC2 txHash e i t obss).2 =
          (loopWFTC2 txHash e i t obss
            (numIterations t (i * 1000)) 0).2 from rfl, h] at hc
      simp [OutcomeV2.confirmedCount] at hc
    · exact h2 (obss j) _ c hj hc
  · intro c hc
    rcases loopM_outcome txHash e i t obss
        (numIterations (t * 1000) (i * 1000)) 0 0 with h | ⟨j, last, hj⟩
    · rw [show (runM txHash e i t obss).outcome =
          (loopM txHash e i t obss
            (numIterations (t * 1000) (i * 1000)) 0 0).outcome from rfl, h] at hc
      simp [OutcomeM.confirmedCount] at hc
    · exact h3 last (obss j) _ c hj hc

/-- C4, witness: a successful receipt one block deep with threshold 1
yields a confirmed run whose count 1 satisfies the threshold. -/
theorem c4_confirmed_only_at_threshold_witness :
    (runWFTC1 "0xh" 1 1 3 (fun _ => obsSuccessAt10Cur11)).2.confirmedCount =
        some 1 ∧ (1 : Int) ≤ 1 :=
  ⟨by decide,
    (c4_confirmed_only_at_threshold "0xh" 1 1 3 0 obsSuccessAt10Cur11
      (fun _ => obsSuccessAt10Cur11)).2.2.2.1 1 (by decide)⟩

/-- C5: when the receipt query never returns a receipt, every
implementation's polling loop terminates with its timeout result, and — in
the timing model where each iteration costs exactly one poll interval —
the loop condition fails at an elapsed time at least the timeout and
strictly less than the timeout plus one poll interval. -/
theorem c5_timeout_boundedness (txHash : String)
    (e interval timeout timeoutMs : Int) (obss : Nat → Obs)
    (hi : 0 < interval) (ht : 0 ≤ timeout) (htm : 0 ≤ timeoutMs)
    (hnr : ∀ k, (obss k).receipt = .ok none) :
    (runWFTC1 txHash e interval timeout obss).2 =
        .timeout txHash (timeoutMessageV1 timeout) ∧
      (runWFTC2 txHash e interval timeoutMs obss).2 =
        .timeoutError (timeoutErrorV2 timeoutMs txHash) ∧
      (runM txHash e interval timeout obss).outcome =
        .timeout txHash (timeoutMessageV1 timeout) ∧
      timeout * 1000 ≤ loopExitTimeMs (timeout * 1000) (interval * 1000) ∧
      loopExitTimeMs (timeout * 1000) (interval * 1000) <
        timeout * 1000 + interval * 1000 ∧
      timeoutMs ≤ loopExitTimeMs timeoutMs (interval * 1000) ∧
      loopExitTimeMs timeoutMs (interval * 1000) <
        timeoutMs + interval * 1000 := by
  have hi1000 : (0 : Int) < interval * 1000 := by omega
  obtain ⟨b1, b2⟩ := loopExitTimeMs_bounds hi1000 (by omega : (0:Int) ≤ timeout * 1000)
  obtain ⟨b3, b4⟩ := loopExitTimeMs_bounds hi1000 htm
  exact ⟨loopWFTC1_timeout_of_noReceipt txHash e interval timeout obss hnr _ 0,
    loopWFTC2_timeout_of_noReceipt txHash e interval timeoutMs obss hnr _ 0,
    loopM_timeout_of_noReceipt txHash e interval timeout obss hnr _ 0 0,
    b1, b2, b3, b4⟩

/-- C5, witness: with a 1-second interval and a 3-second timeout and a
transaction that is never mined, all three implementations time out, and
the exit time 3000 ms lies in the half-open window from the timeout to the
timeout plus one interval. -/
theorem c5_timeout_boundedness_witness :
    (runWFTC1 "0xh" 1 1 3 (fun _ => obsNotMined)).2 =
        .timeout "0xh" (timeoutMessageV1 3) ∧
      (runWFTC2 "0xh" 1 1 3000 (fun _ => obsNotMined)).2 =
        .timeoutError (timeoutErrorV2 3000 "0xh") ∧
      (runM "0xh" 1 1 3 (fun _ => obsNotMined)).outcome =
        .timeout "0xh" (timeoutMessageV1 3) ∧
      (3 : Int) * 1000 ≤ loopExitTimeMs (3 * 1000) (1 * 1000) ∧
      loopExitTimeMs (3 * 1000) (1 * 1000) < 3 * 1000 + 1 * 1000 ∧
      (3000 : Int) ≤ loopExitTimeMs 3000 (1 * 1000) ∧
      loopExitTimeMs 3000 (1 * 1000) < 3000 + 1 * 1000 :=
  c5_timeout_boundedness "0xh" 1 1 3 3000 (fun _ => obsNotMined)
    (by decide) (by decide) (by decide) (fun k => rfl)

/-- C6, counterexample: with `expectedConformations = 1` (which is `≤ 1`)
and a successful receipt one block deep, the milestone handler's run emits
all four progress milestones: the terminal confirmed path calls
`sendProgress` unconditionally, bypassing the `shouldSendProgress` guard
that skips milestones for `expectedConformations ≤ 1`. -/
theorem c6_counterexample :
    ((1 : Int) ≤ 1) ∧
      (runM "0xh" 1 1 300 (fun _ => obsSuccessAt10Cur11)).milestones =
        [25, 50, 75, 100] := by
  refine ⟨by decide, by decide⟩

/-- C6 (amended): with `expectedConformations ≤ 1`, no iteration of the
milestone handler that falls through to the next poll emits any milestone
message (`shouldSendProgress` returns `false`); only the terminal
confirmed/reverted paths, whose `sendProgress` call is unguarded, can
still emit milestones. -/
theorem c6_amended_no_milestones_while_polling (txHash : String)
    (e i : Int) (l : Nat) (obs : Obs) (he : e ≤ 1)
    (hres : (stepM txHash e i l obs).result = none) :
    (stepM txHash e i l obs).milestones = [] := by
  obtain ⟨bn, rc, tx, bl, cr⟩ := obs
  cases bn with
  | err eb => simp [stepM]
  | ok cur =>
    cases rc with
    | err eb => simp [stepM]
    | ok orc =>
      cases orc with
      | none => simp [stepM]
      | some r =>
        by_cases hth : (cur : Int) - (r.blockNumber : Int) ≥ e
        · exfalso
          cases hst : r.status with
          | success => simp [stepM, hst, hth] at hres
          | reverted =>
            cases tx with
            | err eb => simp [stepM, hst, hth] at hres
            | ok otx =>
              cases otx with
              | none => simp [stepM, hst, hth] at hres
              | some t =>
                cases cr with
                | err m => simp [stepM, hst, hth] at hres
                | ok u => simp [stepM, hst, hth] at hres
        · have hsp := shouldSendProgress_eq_false_of_le_one e l
            ((cur : Int) - (r.blockNumber : Int)) he
          simp [stepM, hth, hsp]

/-- C6 amended, witness: with threshold 1 and the transaction not yet
mined, the iteration continues and emits no milestone. -/
theorem c6_amended_no_milestones_while_polling_witness :
    (stepM "0xh" 1 1 0 obsNotMined).milestones = [] :=
  c6_amended_no_milestones_while_polling "0xh" 1 1 0 obsNotMined
    (by decide) (by decide)

/-- C7: over a whole run of the milestone handler, the milestones
announced form a strictly increasing list — each of 25/50/75/100 is
emitted at most once and in increasing order — and every announced value
is one of the four table entries. -/
theorem c7_milestones_strictly_increasing (txHash : String) (e i t : Int)
    (obss : Nat → Obs) :
    List.Pairwise (· < ·) (runM txHash e i t obss).milestones ∧
      (runM txHash e i t obss).milestones ⊆ milestonesList := by
  obtain ⟨h1, h2⟩ := loopM_milestones_spec txHash e i t obss
    (numIterations (t * 1000) (i * 1000)) 0 0
  refine ⟨h1, ?_⟩
  intro x hx
  exact (h2 x hx).2

/-- C8, counterexample: when the `getTransaction` chain read of the
revert-reason recovery throws (receipt reverted in block 10, current
height 11, threshold 1 met), the milestone handler's iteration does *not*
continue to the next poll and does *not* report the error as a status
message: the inner `catch` swallows the error silently and the iteration
finalizes as reverted with the fallback reason. -/
theorem c8_counterexample :
    obsRecoveryError.transaction = .err "boom" ∧
      (stepM "0xh" 1 1 0 obsRecoveryError).result =
        some (.reverted "0xh" 10 1 "Unknown" ⟨10, .reverted, 21000, 7⟩) ∧
      errorCheckingMessage "boom" ∉ (stepM "0xh" 1 1 0 obsRecoveryError).msgs := by
  refine ⟨by decide, by decide, by decide⟩

/-- C8 (amended): errors thrown by the chain reads governed by the outer
`try` — `getBlockNumber` and `getTransactionReceipt` in every
implementation, and `getTransaction`/`getBlock` in the two tool lineages —
are caught, reported as a single error status message, and leave the loop
to continue with the next iteration; in the milestone handler's
revert-reason recovery, errors are instead caught without any status
message and the iteration still finalizes as reverted: a `getTransaction`
error leaves the reason at the fallback `"Unknown"`, while an error thrown
by the re-simulating `call` has its message recorded as the revert
reason.  In every case the iteration yields a value, never an escaping
exception. -/
theorem c8_amended_transient_errors (txHash : String) (e i : Int)
    (l : Nat) (obs : Obs) (msg : String) :
    (obs.blockNumber = .err msg →
      stepWFTC1 txHash e i obs = ([errorCheckingMessage msg], none) ∧
      stepWFTC2 txHash e i obs = ([errorCheckingMessage msg], none) ∧
      stepM txHash e i l obs = ⟨[], [errorCheckingMessage msg], l, none⟩) ∧
      (∀ cur, obs.blockNumber = .ok cur → obs.receipt = .err msg →
        stepWFTC1 txHash e i obs = ([errorCheckingMessage msg], none) ∧
        stepWFTC2 txHash e i obs = ([errorCheckingMessage msg], none) ∧
        stepM txHash e i l obs = ⟨[], [errorCheckingMessage msg], l, none⟩) ∧
      (∀ cur r, obs.blockNumber = .ok cur → obs.receipt = .ok (some r) →
        r.status = .reverted → obs.transaction = .err msg →
        stepWFTC1 txHash e i obs =
            ([revertedMessage txHash, errorCheckingMessage msg], none) ∧
          stepWFTC2 txHash e i obs =
            ([revertedMessage txHash, errorCheckingMessage msg], none)) ∧
      (∀ cur r, obs.blockNumber = .ok cur → obs.receipt = .ok (some r) →
        r.status = .success → obs.block = .err msg →
        stepWFTC1 txHash e i obs = ([errorCheckingMessage msg], none) ∧
          stepWFTC2 txHash e i obs = ([errorCheckingMessage msg], none)) ∧
      (∀ cur r, obs.blockNumber = .ok cur → obs.receipt = .ok (some r) →
        r.status = .reverted → obs.transaction = .err msg →
        e ≤ (cur : Int) - (r.blockNumber : Int) →
        (stepM txHash e i l obs).result =
          some (.reverted txHash r.blockNumber
            ((cur : Int) - (r.blockNumber : Int)) "Unknown" r)) ∧
      (∀ cur r t, obs.blockNumber = .ok cur → obs.receipt = .ok (some r) →
        r.status = .reverted → obs.transaction = .ok (some t) →
        obs.callResult = .err msg →
        e ≤ (cur : Int) - (r.blockNumber : Int) →
        (stepM txHash e i l obs).result =
          some (.reverted txHash r.blockNumber
            ((cur : Int) - (r.blockNumber : Int)) msg r)) := by
  obtain ⟨bn, rc, tx, bl, cr⟩ := obs
  refine ⟨?_, ?_, ?_, ?_, ?_, ?_⟩
  · intro h
    simp only at h
    subst h
    exact ⟨by simp [stepWFTC1], by simp [stepWFTC2], by simp [stepM]⟩
  · intro cur hbn hrc
    simp only at hbn hrc
    subst hbn
    subst hrc
    exact ⟨by simp [stepWFTC1], by simp [stepWFTC2], by simp [stepM]⟩
  · intro cur r hbn hrc hst htx
    simp only at hbn hrc htx
    subst hbn
    subst hrc
    subst htx
    exact ⟨by simp [stepWFTC1, hst], by simp [stepWFTC2, hst]⟩
  · intro cur r hbn hrc hst hbl
    simp only at hbn hrc hbl
    subst hbn
    subst hrc
    subst hbl
    exact ⟨by simp [stepWFTC1, hst], by simp [stepWFTC2, hst]⟩
  · intro cur r hbn hrc hst htx hth
    simp only at hbn hrc htx
    subst hbn
    subst hrc
    subst htx
    simp [stepM, hst, hth]
  · intro cur r t hbn hrc hst htx hcall hth
    simp only at hbn hrc htx hcall
    subst hbn
    subst hrc
    subst htx
    subst hcall
    simp [stepM, hst, hth]

/-- C8 amended, witness: a thrown `getBlockNumber` read is caught,
reported, and non-terminal in all three implementations. -/
theorem c8_amended_transient_errors_witness :
    stepWFTC1 "0xh" 1 1 obsReadError = ([errorCheckingMessage "boom"], none) ∧
      stepWFTC2 "0xh" 1 1 obsReadError = ([errorCheckingMessage "boom"], none) ∧
      stepM "0xh" 1 1 0 obsReadError =
        ⟨[], [errorCheckingMessage "boom"], 0, none⟩ :=
  (c8_amended_transient_errors "0xh" 1 1 0 obsReadError "boom").1 rfl

/-- C9: two runs of the milestone handler that differ only in which
attempted status sends fail produce the same terminal result, the same
attempted status messages, and the same milestones — the `sendStatus`
wrapper catches the send error and returns unit either way, so a
reporting failure can only change the console-error log, never the
monitor's control flow or outcome. -/
theorem c9_reporting_failure_immaterial (f g : Nat → Bool)
    (txHash : String) (e i t : Int) (obss : Nat → Obs) :
    (∀ b m, (sendStatusCatch b m).1 = ()) ∧
      (runMWithReporting f txHash e i t obss).1.outcome =
        (runMWithReporting g txHash e i t obss).1.outcome ∧
      (runMWithReporting f txHash e i t obss).1.msgs =
        (runMWithReporting g txHash e i t obss).1.msgs ∧
      (runMWithReporting f txHash e i t obss).1.milestones =
        (runMWithReporting g txHash e i t obss).1.milestones :=
  ⟨fun _ _ => rfl, rfl, rfl, rfl⟩

/-- C10: with a non-positive timeout the loop condition fails before the
first iteration in every implementation: no observation of the chain is
consumed, no status message is attempted, and the timeout result is
returned at once. -/
theorem c10_nonpositive_timeout_immediate (txHash : String)
    (e i timeout timeoutMs : Int) (obss : Nat → Obs)
    (ht : timeout ≤ 0) (htm : timeoutMs ≤ 0) :
    runWFTC1 txHash e i timeout obss =
        ([], .timeout txHash (timeoutMessageV1 timeout)) ∧
      runWFTC2 txHash e i timeoutMs obss =
        ([], .timeoutError (timeoutErrorV2 timeoutMs txHash)) ∧
      runM txHash e i timeout obss =
        ⟨[], [], .timeout txHash (timeoutMessageV1 timeout)⟩ := by
  have h1 : numIterations (timeout * 1000) (i * 1000) = 0 :=
    numIterations_eq_zero_of_nonpos _ (by omega)
  have h2 : numIterations timeoutMs (i * 1000) = 0 :=
    numIterations_eq_zero_of_nonpos _ htm
  refine ⟨?_, ?_, ?_⟩
  · unfold runWFTC1
    rw [h1]
    rfl
  · unfold runWFTC2
    rw [h2]
    rfl
  · unfold runM
    rw [h1]
    rfl

/-- C10, witness: with timeout 0 the three implementations return their
timeout results immediately and emit nothing. -/
theorem c10_nonpositive_timeout_immediate_witness :
    runWFTC1 "0xh" 1 1 0 (fun _ => obsNotMined) =
        ([], .timeout "0xh" (timeoutMessageV1 0)) ∧
      runWFTC2 "0xh" 1 1 0 (fun _ => obsNotMined) =
        ([], .timeoutError (timeoutErrorV2 0 "0xh")) ∧
      runM "0xh" 1 1 0 (fun _ => obsNotMined) =
        ⟨[], [], .timeout "0xh" (timeoutMessageV1 0)⟩ :=
  c10_nonpositive_timeout_immediate "0xh" 1 1 0 0 (fun _ => obsNotMined)
    (by decide) (by decide)
